import Mathlib

set_option autoImplicit false
set_option maxRecDepth 16384

/-
Verification of the Flask-CAS client library (flask_cas/cas_urls.py and
flask_cas/routing.py) against its natural-language specification.

Python strings are embedded as lists of characters (PyStr), byte strings as
lists of byte values (Bytes).  Functions that can raise return Except PyError.
The parts of the Python standard library the code calls (urllib.parse,
xml.etree.ElementTree, bytes methods) are modelled explicitly below, each with
a doc comment naming the library function it models.
-/

namespace FlaskCas

/-- Python str values are modelled as lists of characters. -/
abbrev PyStr := List Char

/-- Python bytes values are modelled as lists of byte values. -/
abbrev Bytes := List Nat

/-- Shorthand turning a Lean string literal into the PyStr embedding. -/
def strL (s : String) : PyStr := s.toList

/-- The Python exceptions the embedded code can raise: TypeError (bad call
arity, unexpected keyword argument, str plus bytes concatenation, iterating
None, reduce of an empty sequence), ValueError (unsupported CAS_VERSION), and
xml.etree.ElementTree.ParseError. -/
inductive PyError where
  | typeError
  | valueError
  | parseError
  deriving Repr, DecidableEq

/-- Drops the characters satisfying p from the end of a string
(Python str.rstrip restricted to a character class). -/
def rstripBy (p : Char → Bool) (s : PyStr) : PyStr := (s.reverse.dropWhile p).reverse

/-- Drops the characters satisfying p from the start of a string
(Python str.lstrip restricted to a character class). -/
def lstripBy (p : Char → Bool) (s : PyStr) : PyStr := s.dropWhile p

/-- Splits a string at the first occurrence of c (Python s.split(c, 1));
none when c does not occur. -/
def splitOnce (c : Char) : PyStr → Option (PyStr × PyStr)
  | [] => none
  | x :: xs =>
    if x = c then some ([], xs)
    else (splitOnce c xs).map (fun r => (x :: r.1, r.2))

/-- Splits a string on every occurrence of c (Python s.split(c)); always
returns at least one piece. -/
def splitAllOn (c : Char) : PyStr → List PyStr
  | [] => [[]]
  | x :: xs =>
    if x = c then [] :: splitAllOn c xs
    else
      match splitAllOn c xs with
      | [] => [[x]]
      | h :: t => (x :: h) :: t

/-- First-match association-list lookup, the access pattern of Python dicts
used by the embedding. -/
def alookup {α β : Type} [DecidableEq α] (l : List (α × β)) (k : α) : Option β :=
  match l with
  | [] => none
  | (k0, v0) :: rest => if k0 = k then some v0 else alookup rest k

/-- Python dict assignment d[k] = v: replaces the value of an existing key in
place, otherwise appends the new binding (insertion order preserved). -/
def dictSet {α β : Type} [DecidableEq α] (d : List (α × β)) (k : α) (v : β) : List (α × β) :=
  match d with
  | [] => [(k, v)]
  | (k0, v0) :: rest => if k0 = k then (k0, v) :: rest else (k0, v0) :: dictSet rest k v

/-- Concatenation of the images of f, used to model per-byte expansions. -/
def concatMap {α β : Type} (f : α → List β) : List α → List β
  | [] => []
  | a :: as => f a ++ concatMap f as

/-- Uppercase hexadecimal digit, as used by urllib percent escapes. -/
def hexDigitUpper (n : Nat) : Char :=
  match n with
  | 0 => '0' | 1 => '1' | 2 => '2' | 3 => '3' | 4 => '4'
  | 5 => '5' | 6 => '6' | 7 => '7' | 8 => '8' | 9 => '9'
  | 10 => 'A' | 11 => 'B' | 12 => 'C' | 13 => 'D' | 14 => 'E' | 15 => 'F'
  | _ => '0'

/-- ASCII letter or digit test on a byte value. -/
def isAlnumByte (b : Nat) : Bool :=
  (48 ≤ b && b ≤ 57) || (65 ≤ b && b ≤ 90) || (97 ≤ b && b ≤ 122)

/-- UTF-8 encoding of one character (Python str.encode with utf-8). -/
def utf8EncodeChar (c : Char) : List Nat :=
  let n := c.toNat
  if n < 0x80 then [n]
  else if n < 0x800 then [0xC0 + n / 64, 0x80 + n % 64]
  else if n < 0x10000 then [0xE0 + n / 4096, 0x80 + n / 64 % 64, 0x80 + n % 64]
  else [0xF0 + n / 262144, 0x80 + n / 4096 % 64, 0x80 + n / 64 % 64, 0x80 + n % 64]

/-- Models the per-byte step of urllib.parse.quote: a byte in the always-safe
set (ASCII alphanumerics and the bytes of the characters underscore, dot,
minus, tilde) or in the extra safe set is kept as a character, every other
byte becomes an uppercase percent escape. -/
def quoteByte (extra : List Nat) (b : Nat) : PyStr :=
  if isAlnumByte b || b ∈ [95, 46, 45, 126] || b ∈ extra then [Char.ofNat b]
  else ['%', hexDigitUpper (b / 16), hexDigitUpper (b % 16)]

/-- Models urllib.parse.quote on str input with a given extra safe set:
UTF-8 encode, then percent-escape byte by byte. -/
def quoteWith (extra : List Nat) (s : PyStr) : PyStr :=
  concatMap (fun c => concatMap (quoteByte extra) (utf8EncodeChar c)) s

/-- Models urllib.parse.quote with its default safe set, the slash
(byte 47), as called by create_url on the path. -/
def quote (s : PyStr) : PyStr := quoteWith [47] s

/-- Models urllib.parse.quote_plus with empty safe set, the default
quoting of urlencode: when the string contains a space, quote with space
kept safe and then replace each space by a plus. -/
def quote_plus (s : PyStr) : PyStr :=
  if ' ' ∈ s then (quoteWith [32] s).map (fun c => if c = ' ' then '+' else c)
  else quoteWith [] s

/-- Models urllib.parse.urlencode on a list of str pairs: each key and value
quoted by quote_plus, joined as key=value pairs with ampersands. -/
def urlencode : List (PyStr × PyStr) → PyStr
  | [] => []
  | [kv] => quote_plus kv.1 ++ '=' :: quote_plus kv.2
  | kv :: rest => quote_plus kv.1 ++ '=' :: (quote_plus kv.2 ++ '&' :: urlencode rest)

/-- The six components urllib.parse.urlparse produces (urlsplit leaves
params empty). -/
structure UrlParts where
  scheme : PyStr
  netloc : PyStr
  path : PyStr
  params : PyStr
  query : PyStr
  fragment : PyStr
  deriving Repr, DecidableEq

/-- The characters urllib.parse allows inside a scheme. -/
def scheme_chars : PyStr :=
  strL "abcdefghijklmnopqrstuvwxyzABCDEFGHIJKLMNOPQRSTUVWXYZ0123456789+-."

/-- ASCII letter test. -/
def isAlphaAscii (c : Char) : Bool := ('a' ≤ c && c ≤ 'z') || ('A' ≤ c && c ≤ 'Z')

/-- Models the scheme detection of urllib.parse.urlsplit: a colon preceded by
a nonempty run of scheme characters starting with an ASCII letter splits off
the scheme (lowercased); otherwise the default scheme is kept. -/
def detectScheme (url0 : PyStr) (scheme0 : PyStr) : PyStr × PyStr :=
  match splitOnce ':' url0 with
  | some (b :: bs, after) =>
    if isAlphaAscii b && (b :: bs).all (fun c => c ∈ scheme_chars) then
      ((b :: bs).map Char.toLower, after)
    else (scheme0, url0)
  | _ => (scheme0, url0)

/-- A character that ends the netloc part (slash, question mark, hash). -/
def netlocEnd (c : Char) : Bool := c = '/' || c = '?' || c = '#'

/-- Models urllib.parse._splitnetloc as used by urlsplit: when the URL
starts with a double slash, the netloc runs to the first slash, question
mark or hash; the delimiter stays with the remainder. -/
def splitNetloc (u : PyStr) : PyStr × PyStr :=
  if u.take 2 = ['/', '/'] then
    ((u.drop 2).takeWhile (fun c => !netlocEnd c), (u.drop 2).dropWhile (fun c => !netlocEnd c))
  else ([], u)

/-- Models url.split(c, 1) as used by urlsplit for the hash and the question
mark: the part before the first occurrence and the part after it (the whole
string and an empty part when c does not occur). -/
def splitOpt (c : Char) (u : PyStr) : PyStr × PyStr :=
  match splitOnce c u with
  | some p => p
  | none => (u, [])

/-- Models urllib.parse.urlsplit (Python 3, allow_fragments true): detect the
scheme, split off a leading double-slash netloc, then the fragment after the
first hash, then the query after the first question mark.  The params
component is left empty; urlparseModel fills it. -/
def urlsplitModel (url0 : PyStr) (scheme0 : PyStr) : UrlParts :=
  let s1 := detectScheme url0 scheme0
  let n := splitNetloc s1.2
  let f := splitOpt '#' n.2
  let q := splitOpt '?' f.1
  ⟨s1.1, n.1, q.1, [], q.2, f.2⟩

/-- Index of the last occurrence of c in l, if any (Python str.rfind). -/
def lastIdxOf (c : Char) (l : PyStr) : Option Nat :=
  match splitOnce c l.reverse with
  | some (before, _) => some (l.length - 1 - before.length)
  | none => none

/-- Index of the first occurrence of c in l at position start or later
(Python str.find with a start argument). -/
def findIdxFrom (c : Char) (l : PyStr) (start : Nat) : Option Nat :=
  match splitOnce c (l.drop start) with
  | some (before, _) => some (start + before.length)
  | none => none

/-- Models urllib.parse._splitparams: split the params off the last path
segment at the first semicolon after the last slash. -/
def splitparams (u : PyStr) : PyStr × PyStr :=
  if '/' ∈ u then
    match lastIdxOf '/' u with
    | some j =>
      match findIdxFrom ';' u j with
      | some i => (u.take i, u.drop (i + 1))
      | none => (u, [])
    | none => (u, [])
  else
    match findIdxFrom ';' u 0 with
    | some i => (u.take i, u.drop (i + 1))
    | none => (u, [])

/-- Models urllib.parse.urlparse: urlsplit plus the params component split
off the path when the path contains a semicolon. -/
def urlparseModel (url0 : PyStr) (scheme0 : PyStr) : UrlParts :=
  let r := urlsplitModel url0 scheme0
  if ';' ∈ r.path then
    let pp := splitparams r.path
    { r with path := pp.1, params := pp.2 }
  else r

/-- Models urllib.parse.urlunsplit: reassemble scheme, netloc, path, query
and fragment, adding separators only for nonempty components. -/
def urlunsplitModel (scheme netloc path query fragment : PyStr) : PyStr :=
  let u1 :=
    if netloc ≠ [] || path.take 2 = ['/', '/'] then
      let p := if path ≠ [] && path.take 1 ≠ ['/'] then '/' :: path else path
      '/' :: '/' :: (netloc ++ p)
    else path
  let u2 := if scheme ≠ [] then scheme ++ ':' :: u1 else u1
  let u3 := if query ≠ [] then u2 ++ '?' :: query else u2
  if fragment ≠ [] then u3 ++ '#' :: fragment else u3

/-- Models urllib.parse.urlunparse: glue params back onto the path with a
semicolon, then urlunsplit. -/
def urlunparseModel (p : UrlParts) : PyStr :=
  let pathParams := if p.params ≠ [] then p.path ++ ';' :: p.params else p.path
  urlunsplitModel p.scheme p.netloc pathParams p.query p.fragment

/-- The uses_relative scheme list of urllib.parse. -/
def uses_relative : List PyStr :=
  ["", "ftp", "http", "gopher", "nntp", "imap", "wais", "file", "https",
   "shttp", "mms", "prospero", "rtsp", "rtspu", "sftp", "svn", "svn+ssh",
   "ws", "wss"].map String.toList

/-- The uses_netloc scheme list of urllib.parse. -/
def uses_netloc : List PyStr :=
  ["", "ftp", "http", "gopher", "nntp", "telnet", "imap", "wais", "file",
   "mms", "https", "shttp", "snews", "prospero", "rtsp", "rtspu", "rsync",
   "svn", "svn+ssh", "sftp", "nfs", "git", "git+ssh", "ws", "wss",
   "itms-services"].map String.toList

/-- Models the interior filtering step of urllib.parse.urljoin: of the
segment list, the first and last elements are kept and empty interior
segments are removed. -/
def filterInterior (l : List PyStr) : List PyStr :=
  match l with
  | [] => []
  | [x] => [x]
  | x :: rest => x :: (rest.dropLast.filter (fun s => s ≠ []) ++ [rest.getLastD []])

/-- Models the dot-segment resolution loop of urllib.parse.urljoin. -/
def resolveSegments (segments : List PyStr) : List PyStr :=
  let resolved := segments.foldl
    (fun acc seg =>
      if seg = ['.', '.'] then acc.dropLast
      else if seg = ['.'] then acc
      else acc ++ [seg]) ([] : List PyStr)
  if segments.getLastD [] = ['.'] || segments.getLastD [] = ['.', '.'] then
    resolved ++ [[]]
  else resolved

/-- Models urllib.parse.urljoin (Python 3, RFC 3986 style): parse both URLs,
return the reference unchanged for a foreign scheme, inherit netloc, path and
query from the base when the reference leaves them empty, and otherwise
resolve the reference path against the base path. -/
def urljoinModel (base url : PyStr) : PyStr :=
  if base = [] then url
  else if url = [] then base
  else
    let b := urlparseModel base []
    let r := urlparseModel url b.scheme
    if r.scheme ≠ b.scheme ∨ r.scheme ∉ uses_relative then url
    else if r.scheme ∈ uses_netloc ∧ r.netloc ≠ [] then urlunparseModel r
    else
      let netloc := if r.scheme ∈ uses_netloc then b.netloc else r.netloc
      if r.path = [] ∧ r.params = [] then
        let query := if r.query = [] then b.query else r.query
        urlunparseModel ⟨r.scheme, netloc, b.path, b.params, query, r.fragment⟩
      else
        let baseParts0 := splitAllOn '/' b.path
        let baseParts := if baseParts0.getLastD [] ≠ [] then baseParts0.dropLast else baseParts0
        let segments :=
          if r.path.take 1 = ['/'] then splitAllOn '/' r.path
          else filterInterior (baseParts ++ splitAllOn '/' r.path)
        let joined := List.intercalate ['/'] (resolveSegments segments)
        let path := if joined = [] then ['/'] else joined
        urlunparseModel ⟨r.scheme, netloc, path, r.params, r.query, r.fragment⟩

/-- The path argument of create_url: Python allows None, a str, or a list of
optional segments. -/
inductive PathArg where
  | none
  | str (s : PyStr)
  | list (l : List (Option PyStr))

/-- Python truthiness filter on an optional string: None and the empty
string are dropped (filter(lambda x: bool(x), path)). -/
def truthy (o : Option PyStr) : Option PyStr :=
  match o with
  | some s => if s = [] then Option.none else some s
  | none => none

/-- Slash test used by the path joining of create_url. -/
def isSlash (c : Char) : Bool := c = '/'

/-- The joining step of create_url for list paths: strip trailing slashes of
the left part, leading slashes of the right part, join with one slash. -/
def join2 (l r : PyStr) : PyStr :=
  rstripBy isSlash l ++ '/' :: lstripBy isSlash r

/-- Models functools.reduce of join2 over the filtered segment list, as
create_url runs it: reduce with no initial value raises TypeError on an
empty sequence, returns the single element unchanged, and otherwise folds
from the left. -/
def reduceJoin (l : List PyStr) : Except PyError PyStr :=
  match l with
  | [] => .error .typeError
  | x :: xs => .ok (xs.foldl join2 x)

/-- Embeds cas_urls.create_url.  A list path is filtered for truthy segments
and reduced with join2; functools.reduce raises TypeError on an empty
sequence.  A nonempty path is quoted and joined onto the base; pairs whose
value is None are dropped from the query; the query string is prefixed with a
question mark and joined onto the URL with urljoin. -/
def create_url (base : PyStr) (path : PathArg) (query : List (PyStr × Option PyStr)) :
    Except PyError PyStr :=
  let path1 : Except PyError (Option PyStr) :=
    match path with
    | .none => .ok Option.none
    | .str s => .ok (some s)
    | .list l => (reduceJoin (l.filterMap truthy)).map some
  match path1 with
  | .error e => .error e
  | .ok p? =>
    let url :=
      match p? with
      | some p => if p ≠ [] then urljoinModel base (quote p) else base
      | none => base
    let qs := urlencode (query.filterMap (fun kv => kv.2.map (fun v => (kv.1, v))))
    .ok (urljoinModel url ('?' :: qs))

/-- Embeds cas_urls.create_cas_login_url. -/
def create_cas_login_url (cas_url : PyStr) (cas_route_pfx : Option PyStr)
    (service renew gateway method : Option PyStr) : Except PyError PyStr :=
  create_url cas_url (.list [cas_route_pfx, some (strL "login")])
    [(strL "service", service), (strL "renew", renew),
     (strL "gateway", gateway), (strL "method", method)]

/-- Embeds cas_urls.create_cas_logout_url: its parameters are cas_url,
cas_route_pfx and service (default None), and the return address is always
passed under the query-parameter name service. -/
def create_cas_logout_url (cas_url : PyStr) (cas_route_pfx : Option PyStr)
    (service : Option PyStr) : Except PyError PyStr :=
  create_url cas_url (.list [cas_route_pfx, some (strL "logout")])
    [(strL "service", service)]

/-- Embeds cas_urls.create_cas_validate_url: the v1 validate endpoint with
parameters service, ticket, renew. -/
def create_cas_validate_url (cas_url : PyStr) (cas_route_pfx service ticket renew : Option PyStr) :
    Except PyError PyStr :=
  create_url cas_url (.list [cas_route_pfx, some (strL "validate")])
    [(strL "service", service), (strL "ticket", ticket), (strL "renew", renew)]

/-- Embeds cas_urls.create_cas_serviceValidate_url: the v2/v3
serviceValidate endpoint with parameters service, ticket, pgtUrl, renew. -/
def create_cas_serviceValidate_url (cas_url : PyStr)
    (cas_route_pfx service ticket pgtUrl renew : Option PyStr) : Except PyError PyStr :=
  create_url cas_url (.list [cas_route_pfx, some (strL "serviceValidate")])
    [(strL "service", service), (strL "ticket", ticket),
     (strL "pgtUrl", pgtUrl), (strL "renew", renew)]

/-- The declared parameter names of cas_urls.create_cas_validate_url. -/
def validate_url_params : List String :=
  ["cas_url", "cas_route_prefix", "service", "ticket", "renew"]

/-- Embeds the Python call semantics of create_cas_validate_url for a call
with four positional arguments plus keyword arguments, the shape used by
routing.validate: binding a keyword argument whose name is not a declared
parameter raises TypeError before the function body runs. -/
def call_create_cas_validate_url (cas_url : PyStr)
    (cas_route_pfx service ticket : Option PyStr)
    (kwargs : List (String × Option PyStr)) : Except PyError PyStr :=
  if kwargs.all (fun kv => validate_url_params.contains kv.1) then
    create_cas_validate_url cas_url cas_route_pfx service ticket
      ((alookup kwargs "renew").join)
  else .error .typeError

/-- Embeds the Python call semantics of create_cas_logout_url for a call
with a string first argument followed by further positional arguments: the
function has three parameters (cas_url, cas_route_pfx, service), so a
call with more than three positional arguments raises TypeError before the
body runs. -/
def call_create_cas_logout_url (cas_url : PyStr) (rest : List (Option PyStr)) :
    Except PyError PyStr :=
  match rest with
  | [p] => create_cas_logout_url cas_url p Option.none
  | [p, s] => create_cas_logout_url cas_url p s
  | _ => .error .typeError

/-! Routing layer: sessions, response bodies, XML, the three protocol
response handlers, the validate orchestrator and the logout redirect. -/

/-- A multi-valued CAS attribute value: a scalar text (possibly None) or a
list of texts. -/
inductive AttrVal where
  | s (v : Option String)
  | l (vs : List (Option String))
  deriving Repr, DecidableEq

/-- The attributes mapping built by the V3 handler, a Python dict in
insertion order. -/
abbrev AttrDict := List (String × AttrVal)

/-- A value stored in the Flask session by this code: a username (text of
the user element, possibly None) or an attributes mapping. -/
inductive SessVal where
  | vStr (v : Option String)
  | vAttrs (a : AttrDict)
  deriving Repr, DecidableEq

/-- The Flask session, a string-keyed dict in insertion order. -/
abbrev Session := List (String × SessVal)

/-- The configuration the routing module reads from the Flask app. -/
structure Config where
  cas_server : PyStr
  cas_route_pfx : PyStr
  cas_version : String
  cas_username_session_key : String
  cas_attributes_session_key : String
  cas_logout_return_url : Option PyStr

/-- ASCII whitespace on bytes, the class bytes.strip removes. -/
def isSpaceByte (b : Nat) : Bool :=
  b = 32 || b = 9 || b = 10 || b = 13 || b = 11 || b = 12

/-- Models bytes.strip with no argument: whitespace removed from both
ends. -/
def bstrip (b : Bytes) : Bytes :=
  ((b.dropWhile isSpaceByte).reverse.dropWhile isSpaceByte).reverse

/-- Accumulator form of readlines. -/
def readlinesAux : Bytes → Bytes → List Bytes
  | [], acc => if acc = [] then [] else [acc.reverse]
  | 10 :: rest, acc => (10 :: acc).reverse :: readlinesAux rest []
  | b :: rest, acc => readlinesAux rest (b :: acc)

/-- Models response.readlines() on the byte body: lines split after each
newline byte, terminators kept, a nonempty unterminated tail kept. -/
def readlines (b : Bytes) : List Bytes := readlinesAux b []

/-- Fuel-driven UTF-8 decoding with invalid sequences skipped. -/
def utf8DecodeIgnoreAux : Nat → Bytes → List Char
  | 0, _ => []
  | _ + 1, [] => []
  | fuel + 1, b :: rest =>
    if b < 0x80 then Char.ofNat b :: utf8DecodeIgnoreAux fuel rest
    else if 0xC2 ≤ b && b ≤ 0xDF then
      match rest with
      | b2 :: rest2 =>
        if 0x80 ≤ b2 && b2 ≤ 0xBF then
          Char.ofNat ((b - 0xC0) * 64 + (b2 - 0x80)) :: utf8DecodeIgnoreAux fuel rest2
        else utf8DecodeIgnoreAux fuel rest
      | [] => []
    else if 0xE0 ≤ b && b ≤ 0xEF then
      match rest with
      | b2 :: b3 :: rest3 =>
        if (0x80 ≤ b2 && b2 ≤ 0xBF) && (0x80 ≤ b3 && b3 ≤ 0xBF)
            && !(b = 0xE0 && b2 < 0xA0) && !(b = 0xED && 0xA0 ≤ b2) then
          Char.ofNat ((b - 0xE0) * 4096 + (b2 - 0x80) * 64 + (b3 - 0x80))
            :: utf8DecodeIgnoreAux fuel rest3
        else utf8DecodeIgnoreAux fuel rest
      | _ => []
    else if 0xF0 ≤ b && b ≤ 0xF4 then
      match rest with
      | b2 :: b3 :: b4 :: rest4 =>
        if (0x80 ≤ b2 && b2 ≤ 0xBF) && (0x80 ≤ b3 && b3 ≤ 0xBF) && (0x80 ≤ b4 && b4 ≤ 0xBF)
            && !(b = 0xF0 && b2 < 0x90) && !(b = 0xF4 && 0x90 ≤ b2) then
          Char.ofNat ((b - 0xF0) * 262144 + (b2 - 0x80) * 4096 + (b3 - 0x80) * 64 + (b4 - 0x80))
            :: utf8DecodeIgnoreAux fuel rest4
        else utf8DecodeIgnoreAux fuel rest
      | _ => []
    else utf8DecodeIgnoreAux fuel rest

/-- Models bytes.decode with utf8 and errors=ignore. -/
def utf8DecodeIgnore (b : Bytes) : String := String.mk (utf8DecodeIgnoreAux b.length b)

/-- An ElementTree element: resolved tag (Clark notation for namespaced
names), attribute dict, text before the first child, and child elements in
document order. -/
inductive Elem where
  | mk (tag : String) (attrib : List (String × String)) (text : Option String)
      (children : List Elem)

/-- The resolved tag of an element. -/
def Elem.tag : Elem → String
  | .mk t _ _ _ => t

/-- The attribute dict of an element. -/
def Elem.attrib : Elem → List (String × String)
  | .mk _ a _ _ => a

/-- The text of an element (None when no characters precede the first child
or end tag). -/
def Elem.text : Elem → Option String
  | .mk _ _ t _ => t

/-- The child elements of an element in document order. -/
def Elem.children : Elem → List Elem
  | .mk _ _ _ c => c

/-- Namespace environment during XML reading: prefix (empty for the default
namespace) to URI. -/
abbrev NsEnv := List (PyStr × PyStr)

/-- Clark notation for a namespaced name: the URI in braces before the local
name, as ElementTree resolves prefixed tags. -/
def mkQName (uri loc : PyStr) : String :=
  String.mk (Char.ofNat 123 :: uri ++ Char.ofNat 125 :: loc)

/-- Characters allowed in an XML name for the subset modelled. -/
def nameChar (c : Char) : Bool :=
  c.isAlphanum || c = ':' || c = '_' || c = '-' || c = '.'

/-- XML whitespace. -/
def xmlWs (c : Char) : Bool := c = ' ' || c = '\t' || c = '\n' || c = '\r'

/-- Resolves a possibly prefixed tag name against the namespace environment,
as ElementTree does: a bound prefix gives Clark notation, an unbound prefix
is an error, an unprefixed tag takes the default namespace when one is
declared. -/
def resolveTag (env : NsEnv) (raw : PyStr) : Option String :=
  match splitOnce ':' raw with
  | some (p, loc) => (alookup env p).map (fun uri => mkQName uri loc)
  | none =>
    match alookup env [] with
    | some uri => if uri ≠ [] then some (mkQName uri raw) else some (String.mk raw)
    | none => some (String.mk raw)

/-- Resolves an attribute name: prefixed names are namespaced, unprefixed
names stay plain (the default namespace does not apply to attributes). -/
def resolveAttrName (env : NsEnv) (raw : PyStr) : Option String :=
  match splitOnce ':' raw with
  | some (p, loc) => (alookup env p).map (fun uri => mkQName uri loc)
  | none => some (String.mk raw)

/-- Recognizes xmlns declarations among raw attributes. -/
def isXmlnsName (n : PyStr) : Bool :=
  n = strL "xmlns" || (n.take 6 = strL "xmlns:")

/-- Extracts the namespace binding of an xmlns declaration, if any. -/
def xmlnsBinding (kv : PyStr × PyStr) : Option (PyStr × PyStr) :=
  if kv.1 = strL "xmlns" then some (([] : PyStr), kv.2)
  else if kv.1.take 6 = strL "xmlns:" then some (kv.1.drop 6, kv.2)
  else none

/-- Resolves every attribute name of a list, failing on an unbound
prefix. -/
def resolveAllAttrs (env : NsEnv) : List (PyStr × PyStr) → Option (List (String × String))
  | [] => some []
  | kv :: rest =>
    match resolveAttrName env kv.1, resolveAllAttrs env rest with
    | some n, some r => some ((n, String.mk kv.2) :: r)
    | _, _ => none

mutual

/-- Reads one element starting at a left angle bracket: raw name, attribute
list, then either a self-closing tag or content up to the matching end
tag. -/
def pElem : Nat → NsEnv → PyStr → Option (Elem × PyStr)
  | 0, _, _ => none
  | fuel + 1, env, cs =>
    match cs with
    | '<' :: cs1 =>
      let rawName := cs1.takeWhile nameChar
      if rawName = [] then none
      else
        match pAttrs fuel (cs1.drop rawName.length) [] with
        | none => none
        | some (rawAttrs, selfClose, cs3) =>
          let env2 := rawAttrs.filterMap xmlnsBinding ++ env
          let realAttrs := rawAttrs.filter (fun kv => !isXmlnsName kv.1)
          match resolveTag env2 rawName, resolveAllAttrs env2 realAttrs with
          | some tagName, some attribs =>
            if selfClose then some (Elem.mk tagName attribs Option.none [], cs3)
            else
              match pContent fuel env2 rawName cs3 with
              | none => none
              | some (text, children, rest) =>
                some (Elem.mk tagName attribs text children, rest)
          | _, _ => none
    | _ => none

/-- Reads the attribute list of a start tag up to the closing angle bracket;
reports whether the tag was self-closing. -/
def pAttrs : Nat → PyStr → List (PyStr × PyStr) → Option (List (PyStr × PyStr) × Bool × PyStr)
  | 0, _, _ => none
  | fuel + 1, cs, acc =>
    match cs.dropWhile xmlWs with
    | '/' :: '>' :: rest => some (acc.reverse, true, rest)
    | '>' :: rest => some (acc.reverse, false, rest)
    | cs1 =>
      let an := cs1.takeWhile nameChar
      if an = [] then none
      else
        match cs1.drop an.length with
        | '=' :: '"' :: cs2 =>
          match splitOnce '"' cs2 with
          | some (v, rest) => pAttrs fuel rest ((an, v) :: acc)
          | none => none
        | _ => none

/-- Reads element content: the text before the first child, then the
children up to the matching end tag. -/
def pContent : Nat → NsEnv → PyStr → PyStr → Option (Option String × List Elem × PyStr)
  | 0, _, _, _ => none
  | fuel + 1, env, rawName, cs =>
    let text := cs.takeWhile (fun c => c ≠ '<')
    let textOpt := if text = [] then Option.none else some (String.mk text)
    match pChildren fuel env rawName (cs.drop text.length) with
    | none => none
    | some (children, rest) => some (textOpt, children, rest)

/-- Reads sibling elements until the end tag with the given raw name;
inter-element text (the tails, unused by the code under verification) is
skipped. -/
def pChildren : Nat → NsEnv → PyStr → PyStr → Option (List Elem × PyStr)
  | 0, _, _, _ => none
  | fuel + 1, env, rawName, cs =>
    match cs with
    | '<' :: '/' :: cs1 =>
      let cn := cs1.takeWhile nameChar
      if cn = rawName then
        match (cs1.drop cn.length).dropWhile xmlWs with
        | '>' :: rest => some ([], rest)
        | _ => none
      else none
    | '<' :: _ =>
      match pElem fuel env cs with
      | none => none
      | some (child, rest1) =>
        let tail := rest1.takeWhile (fun c => c ≠ '<')
        match pChildren fuel env rawName (rest1.drop tail.length) with
        | none => none
        | some (sibs, rest) => some (child :: sibs, rest)
    | _ => none

end

/-- Models xml.etree.ElementTree.fromstring on the byte body, for the XML
subset the CAS protocol uses (elements, double-quoted attributes, namespace
declarations, character data without entity references).  Namespaced names
are resolved to Clark notation.  Input that is not a single well-formed
element (after optional surrounding whitespace) raises ParseError. -/
def fromstring (data : Bytes) : Except PyError Elem :=
  let cs := (data.map Char.ofNat).dropWhile xmlWs
  match pElem (4 * cs.length + 16) [] cs with
  | some (e, rest) => if rest.dropWhile xmlWs = [] then .ok e else .error .parseError
  | none => .error .parseError

/-- The CAS XML namespace. -/
def cas_ns : PyStr := strL "http://www.yale.edu/tp/cas"

/-- Clark name of the cas:user element. -/
def qnUser : String := mkQName cas_ns (strL "user")

/-- Clark name of the cas:authenticationFailure element. -/
def qnAuthFailure : String := mkQName cas_ns (strL "authenticationFailure")

/-- Clark name of the cas:attributes element. -/
def qnAttributes : String := mkQName cas_ns (strL "attributes")

/-- Models ElementTree find with a star-slash-tag path: the first grandchild
of the root with the given resolved tag, children scanned in document
order. -/
def findStarChild (e : Elem) (tag : String) : Option Elem :=
  e.children.findSome? (fun c => c.children.find? (fun g => g.tag == tag))

/-- Models ElementTree find with a plain tag path: the first child with the
given resolved tag. -/
def findChild (e : Elem) (tag : String) : Option Elem :=
  e.children.find? (fun c => c.tag == tag)

/-- Models attr.tag.split on the closing brace followed by pop: the part
after the last closing brace (the whole tag when no brace occurs), which
strips the Clark-notation namespace part. -/
def localName (tag : String) : String :=
  String.mk (tag.toList.reverse.takeWhile (fun c => c ≠ Char.ofNat 125)).reverse

/-- Embeds routing._validate_cas1: unpack the two response lines (a
different line count raises ValueError, caught by the handler, which logs
and treats the response as invalid), compare the stripped first line with
the yes literal, and on success store the stripped decoded second line under
the username session key. -/
def _validate_cas1 (cfg : Config) (s : Session) (data : Bytes) :
    Except PyError Bool × Session :=
  match readlines data with
  | [line1, line2] =>
    if bstrip line1 = [121, 101, 115] then
      (.ok true,
       dictSet s cfg.cas_username_session_key
         (.vStr (some (utf8DecodeIgnore (bstrip line2)))))
    else (.ok false, s)
  | _ => (.ok false, s)

/-- Embeds routing._validate_cas2.  The body is parsed (a ParseError
propagates, the try block only has a finally clause); a cas:user grandchild
makes the response valid and its text is stored under the username session
key; otherwise the cas:authenticationFailure child is looked up, and the
logging concatenations raise TypeError when the element is missing (str plus
bytes) or when its code attribute or text is None. -/
def _validate_cas2 (cfg : Config) (s : Session) (data : Bytes) :
    Except PyError Bool × Session :=
  match fromstring data with
  | .error e => (.error e, s)
  | .ok tree =>
    match findStarChild tree qnUser with
    | some user =>
      (.ok true, dictSet s cfg.cas_username_session_key (.vStr user.text))
    | none =>
      match findChild tree qnAuthFailure with
      | none => (.error .typeError, s)
      | some err =>
        match alookup err.attrib "code", err.text with
        | some _, some _ => (.ok false, s)
        | _, _ => (.error .typeError, s)

/-- The folding step of the V3 attribute loop: first occurrence of a local
tag stores a scalar, the second turns it into a two-element list, later ones
append. -/
def foldStep (attributes : AttrDict) (attr : Elem) : AttrDict :=
  let tag := localName attr.tag
  match alookup attributes tag with
  | some (.l vs) => dictSet attributes tag (.l (vs ++ [attr.text]))
  | some (.s v) => dictSet attributes tag (.l [v, attr.text])
  | none => dictSet attributes tag (.s attr.text)

/-- The attribute folding loop of routing._validate_cas3 over the children
of the cas:attributes element in document order. -/
def foldAttrs (children : List Elem) : AttrDict := children.foldl foldStep []

/-- Embeds routing._validate_cas3: like the V2 handler, but on success it
also iterates the children of the cas:attributes grandchild (iterating None
raises TypeError when that element is missing) and stores the folded
attributes mapping beside the username. -/
def _validate_cas3 (cfg : Config) (s : Session) (data : Bytes) :
    Except PyError Bool × Session :=
  match fromstring data with
  | .error e => (.error e, s)
  | .ok tree =>
    match findStarChild tree qnUser with
    | some user =>
      match findStarChild tree qnAttributes with
      | none => (.error .typeError, s)
      | some attrs =>
        (.ok true,
         dictSet
           (dictSet s cfg.cas_username_session_key (.vStr user.text))
           cfg.cas_attributes_session_key (.vAttrs (foldAttrs attrs.children)))
    | none =>
      match findChild tree qnAuthFailure with
      | none => (.error .typeError, s)
      | some err =>
        match alookup err.attrib "code", err.text with
        | some _, some _ => (.ok false, s)
        | _, _ => (.error .typeError, s)

/-- Embeds routing.validate.  The supported-version check on the _PROTOCOLS
keys comes first and raises ValueError for any other version; then the
validate URL is built by calling create_cas_validate_url with four
positional arguments and the keyword argument version; then the response
body for that URL (fetch models urlopen plus read) is dispatched to the
handler selected by the configured version. -/
def validate (cfg : Config) (service : PyStr) (ticket : Option PyStr)
    (fetch : PyStr → Bytes) (s : Session) : Except PyError Bool × Session :=
  if ¬ (cfg.cas_version = "1" ∨ cfg.cas_version = "2" ∨ cfg.cas_version = "3") then
    (.error .valueError, s)
  else
    match call_create_cas_validate_url cfg.cas_server (some cfg.cas_route_pfx)
        (some service) ticket [("version", some cfg.cas_version.toList)] with
    | .error e => (.error e, s)
    | .ok url =>
      let data := fetch url
      if cfg.cas_version = "1" then _validate_cas1 cfg s data
      else if cfg.cas_version = "2" then _validate_cas2 cfg s data
      else _validate_cas3 cfg s data

/-- Embeds the redirect-URL construction of routing.logout: it passes the
four configured values (server, route prefix, logout return URL, version) as
positional arguments to create_cas_logout_url. -/
def logout_redirect_url (cfg : Config) : Except PyError PyStr :=
  call_create_cas_logout_url cfg.cas_server
    [some cfg.cas_route_pfx, cfg.cas_logout_return_url, some cfg.cas_version.toList]

/-- The configuration of tests/test_routing.py (setUp, with CAS_VERSION and
CAS_LOGOUT_RETURN_URL as set by test_logout_with_return_url). -/
def testCfg : Config :=
  { cas_server := strL "http://cas.server.com"
    cas_route_pfx := strL "cas"
    cas_version := "2"
    cas_username_session_key := "CAS_USERNAME"
    cas_attributes_session_key := "CAS_ATTRIBUTES"
    cas_logout_return_url := some (strL "http://example.com") }

/-- Shorthand turning a Lean string literal into the Bytes embedding of an
ASCII response body. -/
def strB (s : String) : Bytes := s.toList.map Char.toNat

/-- A run of n slashes, used to state slash-padding invariance. -/
def slashes (n : Nat) : PyStr := List.replicate n '/'

/-- The texts of the attribute children with a given local tag name, in
document order: the reference list an attribute key should fold to. -/
def collectAttr (children : List Elem) (k : String) : List (Option String) :=
  (children.filter (fun a => localName a.tag == k)).map Elem.text

/-- How a list of collected texts must be presented in the attributes
mapping: absent for no occurrence, a scalar for one, a list for two or
more. -/
def presentAs (vs : List (Option String)) : Option AttrVal :=
  match vs with
  | [] => none
  | [v] => some (.s v)
  | v1 :: v2 :: rest => some (.l (v1 :: v2 :: rest))

/-- Extension of an already-stored attribute value by further collected
texts, the accumulator view of the folding loop. -/
def combineAttr (cur : Option AttrVal) (vs : List (Option String)) : Option AttrVal :=
  match cur with
  | none => presentAs vs
  | some (.s v) =>
    match vs with
    | [] => some (.s v)
    | w :: t => some (.l (v :: w :: t))
  | some (.l ws) => some (.l (ws ++ vs))

/-- Decidable equality for Except results. -/
instance {ε α : Type} [DecidableEq ε] [DecidableEq α] : DecidableEq (Except ε α) :=
  fun a b =>
    match a, b with
    | .ok x, .ok y =>
      if h : x = y then isTrue (by rw [h]) else isFalse (by intro hc; cases hc; exact h rfl)
    | .error x, .error y =>
      if h : x = y then isTrue (by rw [h]) else isFalse (by intro hc; cases hc; exact h rfl)
    | .ok _, .error _ => isFalse (by intro hc; cases hc)
    | .error _, .ok _ => isFalse (by intro hc; cases hc)

/-- A successful CAS 2.0 response body (namespace prefix c bound to the CAS
namespace). -/
def xmlV2ok : Bytes :=
  strB "<r xmlns:c=\"http://www.yale.edu/tp/cas\"><s><c:user>bob</c:user></s></r>"

/-- The element tree of xmlV2ok. -/
def treeV2ok : Elem :=
  Elem.mk "r" [] Option.none
    [Elem.mk "s" [] Option.none [Elem.mk qnUser [] (some "bob") []]]

/-- A successful CAS response whose user element is empty. -/
def xmlEmptyUser : Bytes :=
  strB "<r xmlns:c=\"http://www.yale.edu/tp/cas\"><s><c:user/></s></r>"

/-- The element tree of xmlEmptyUser. -/
def treeEmptyUser : Elem :=
  Elem.mk "r" [] Option.none
    [Elem.mk "s" [] Option.none [Elem.mk qnUser [] Option.none []]]

/-- A CAS authentication failure response body. -/
def xmlV2fail : Bytes :=
  strB "<r xmlns:c=\"http://www.yale.edu/tp/cas\"><c:authenticationFailure code=\"INVALID_TICKET\">bad</c:authenticationFailure></r>"

/-- A successful CAS 3.0 response with a repeated affiliation attribute and
a single email attribute. -/
def xmlV3ok : Bytes :=
  strB "<r xmlns:c=\"http://www.yale.edu/tp/cas\"><s><c:user>bob</c:user><c:attributes><c:affiliation>staff</c:affiliation><c:affiliation>faculty</c:affiliation><c:email>e</c:email></c:attributes></s></r>"

/-- The user element of xmlV3ok. -/
def userBob : Elem := Elem.mk qnUser [] (some "bob") []

/-- The attributes element of xmlV3ok. -/
def attrsV3 : Elem :=
  Elem.mk qnAttributes [] Option.none
    [Elem.mk (mkQName cas_ns (strL "affiliation")) [] (some "staff") [],
     Elem.mk (mkQName cas_ns (strL "affiliation")) [] (some "faculty") [],
     Elem.mk (mkQName cas_ns (strL "email")) [] (some "e") []]

/-- The element tree of xmlV3ok. -/
def treeV3ok : Elem :=
  Elem.mk "r" [] Option.none [Elem.mk "s" [] Option.none [userBob, attrsV3]]

/-- A well-formed response whose cas:user element sits three levels below
the root instead of two. -/
def xmlDeep : Bytes :=
  strB "<r xmlns:c=\"http://www.yale.edu/tp/cas\"><a><b><c:user>bob</c:user></b></a></r>"

/-- The element tree of xmlDeep. -/
def treeDeep : Elem :=
  Elem.mk "r" [] Option.none
    [Elem.mk "a" [] Option.none
      [Elem.mk "b" [] Option.none [Elem.mk qnUser [] (some "bob") []]]]

/-! Theorems.  General helper lemmas first, then one theorem per claim with
its witness or counterexample. -/

theorem splitOnce_eq_none_of_not_mem {c : Char} : ∀ {l : PyStr}, c ∉ l → splitOnce c l = none := by
  intro l
  induction l with
  | nil => intro _; rfl
  | cons x xs ih =>
    intro h
    simp only [List.mem_cons, not_or] at h
    have hx : ¬ x = c := fun he => h.1 he.symm
    simp [splitOnce, hx, ih h.2]

theorem splitOnce_cons_self (c : Char) (l : PyStr) : splitOnce c (c :: l) = some ([], l) := by
  simp [splitOnce]

theorem charOfNat_toNat {b : Nat} (h : b < 55296) : (Char.ofNat b).toNat = b := by
  simp [Char.ofNat, Nat.isValidChar, h, Char.ofNatAux, Char.toNat, UInt32.toNat,
    UInt32.ofNatTruncate, BitVec.toNat_ofNat]

theorem hexDigitUpper_ne_hash (n : Nat) : hexDigitUpper n ≠ '#' := by
  unfold hexDigitUpper
  split <;> decide

theorem mem_concatMap {α β : Type} (f : α → List β) (b : β) :
    ∀ (l : List α), b ∈ concatMap f l ↔ ∃ a ∈ l, b ∈ f a := by
  intro l
  induction l with
  | nil => simp [concatMap]
  | cons x xs ih => simp [concatMap, ih]

theorem quoteByte_no_hash (extra : List Nat) (hextra : ∀ x ∈ extra, x < 128 ∧ x ≠ 35)
    (b : Nat) : '#' ∉ quoteByte extra b := by
  unfold quoteByte
  split
  case isTrue h =>
    intro hm
    simp only [List.mem_singleton] at hm
    have hb : b < 128 ∧ b ≠ 35 := by
      simp only [Bool.or_eq_true, Bool.and_eq_true, isAlnumByte, decide_eq_true_eq,
        List.mem_cons, List.not_mem_nil, or_false] at h
      rcases h with (h | h) | h
      · rcases h with (h | h) | h <;> omega
      · rcases h with h | h | h | h <;> omega
      · exact hextra b h
    have : ('#' : Char).toNat = b := by rw [hm]; exact charOfNat_toNat (by omega)
    have h35 : ('#' : Char).toNat = 35 := by decide
    omega
  case isFalse h =>
    intro hm
    simp only [List.mem_cons, List.not_mem_nil, or_false] at hm
    rcases hm with hm | hm | hm
    · exact absurd hm (by decide)
    · exact hexDigitUpper_ne_hash _ hm.symm
    · exact hexDigitUpper_ne_hash _ hm.symm

theorem quoteWith_no_hash (extra : List Nat) (hextra : ∀ x ∈ extra, x < 128 ∧ x ≠ 35)
    (s : PyStr) : '#' ∉ quoteWith extra s := by
  intro hm
  rw [quoteWith, mem_concatMap] at hm
  obtain ⟨c, _, hc⟩ := hm
  rw [mem_concatMap] at hc
  obtain ⟨b, _, hb⟩ := hc
  exact quoteByte_no_hash extra hextra b hb

theorem quote_plus_no_hash (s : PyStr) : '#' ∉ quote_plus s := by
  unfold quote_plus
  split
  · intro hm
    rw [List.mem_map] at hm
    obtain ⟨c, hc, hfc⟩ := hm
    by_cases hsp : c = ' '
    · rw [if_pos hsp] at hfc
      exact absurd hfc (by decide)
    · rw [if_neg hsp] at hfc
      rw [hfc] at hc
      exact quoteWith_no_hash [32] (by intro x hx; simp at hx; omega) s hc
  · exact quoteWith_no_hash [] (by intro x hx; simp at hx) s

theorem urlencode_no_hash : ∀ (q : List (PyStr × PyStr)), '#' ∉ urlencode q := by
  intro q
  induction q with
  | nil => simp [urlencode]
  | cons kv rest ih =>
    cases rest with
    | nil =>
      simp only [urlencode, List.mem_append, List.mem_cons, not_or]
      exact ⟨quote_plus_no_hash _, by decide, quote_plus_no_hash _⟩
    | cons kv2 t =>
      simp only [urlencode, List.mem_append, List.mem_cons, not_or]
      exact ⟨quote_plus_no_hash _, by decide, quote_plus_no_hash _, by decide, ih⟩

theorem urlencode_ne_nil {q : List (PyStr × PyStr)} (h : q ≠ []) : urlencode q ≠ [] := by
  cases q with
  | nil => exact absurd rfl h
  | cons kv rest =>
    cases rest with
    | nil =>
      intro hc
      have := congrArg List.length hc
      simp [urlencode] at this
    | cons kv2 t =>
      intro hc
      have := congrArg List.length hc
      simp [urlencode] at this

theorem urlparse_query_ref (sch qs : PyStr) (hh : '#' ∉ qs) :
    urlparseModel ('?' :: qs) sch = ⟨sch, [], [], [], qs, []⟩ := by
  have hdetect : detectScheme ('?' :: qs) sch = (sch, '?' :: qs) := by
    unfold detectScheme
    cases hsp : splitOnce ':' ('?' :: qs) with
    | none => rfl
    | some p =>
      simp only [splitOnce, if_neg (by decide : ¬('?' : Char) = ':')] at hsp
      cases hsp2 : splitOnce ':' qs with
      | none => rw [hsp2] at hsp; simp at hsp
      | some p2 =>
        rw [hsp2] at hsp
        simp only [Option.map_some'] at hsp
        cases hsp
        simp [isAlphaAscii]
  have hfrag : splitOnce '#' ('?' :: qs) = none := by
    refine splitOnce_eq_none_of_not_mem ?_
    simp only [List.mem_cons, not_or]
    exact ⟨by decide, hh⟩
  have hnet : splitNetloc ('?' :: qs) = ([], '?' :: qs) := by
    refine if_neg ?_
    cases qs <;> simp [List.take]
  simp only [urlparseModel, urlsplitModel]
  rw [hdetect]
  simp only [hnet, splitOpt, hfrag, splitOnce_cons_self]
  simp

theorem mem_urlunsplit_query (scheme netloc path fragment : PyStr) {query : PyStr}
    (hq : query ≠ []) : '?' ∈ urlunsplitModel scheme netloc path query fragment := by
  dsimp only [urlunsplitModel]
  rw [if_pos hq]
  split <;> simp

theorem mem_urljoin_query (u0 : PyStr) {qs : PyStr} (hq : qs ≠ []) (hh : '#' ∉ qs) :
    '?' ∈ urljoinModel u0 ('?' :: qs) := by
  simp only [urljoinModel]
  by_cases hb : u0 = []
  · rw [if_pos hb]; exact List.mem_cons_self _ _
  rw [if_neg hb, if_neg (by simp : ¬('?' :: qs = []))]
  rw [urlparse_query_ref (urlparseModel u0 []).scheme qs hh]
  by_cases hrel : (urlparseModel u0 []).scheme ∈ uses_relative
  · rw [if_neg (by simp [hrel])]
    rw [if_neg (by simp)]
    rw [if_pos (by simp)]
    rw [if_neg hq]
    dsimp only [urlunparseModel]
    exact mem_urlunsplit_query _ _ _ _ hq
  · rw [if_pos (by simp [hrel])]
    exact List.mem_cons_self _ _

/-- C4 (amended): for every base, path and query-parameter list with at
least one pair whose value is not None, any string create_url returns
contains a literal question mark.  With zero remaining parameters the bare
question mark is dropped by urljoin, so the original claim that the result
always contains one fails (see the counterexample). -/
theorem C4_query_mark_when_params {base : PyStr} {path : PathArg}
    {query : List (PyStr × Option PyStr)} {u : PyStr}
    (hq : query.filterMap (fun kv => kv.2.map (fun v => (kv.1, v))) ≠ [])
    (hok : create_url base path query = .ok u) : '?' ∈ u := by
  have hqs : urlencode (query.filterMap (fun kv => kv.2.map (fun v => (kv.1, v)))) ≠ [] :=
    urlencode_ne_nil hq
  have hhash : '#' ∉ urlencode (query.filterMap (fun kv => kv.2.map (fun v => (kv.1, v)))) :=
    urlencode_no_hash _
  cases path with
  | none =>
    simp only [create_url] at hok
    injection hok with h
    subst h
    exact mem_urljoin_query _ hqs hhash
  | str s =>
    simp only [create_url] at hok
    injection hok with h
    subst h
    exact mem_urljoin_query _ hqs hhash
  | list l =>
    simp only [create_url] at hok
    cases hr : reduceJoin (l.filterMap truthy) with
    | error e => rw [hr] at hok; simp [Except.map] at hok
    | ok j =>
      rw [hr] at hok
      simp only [Except.map] at hok
      injection hok with h
      subst h
      exact mem_urljoin_query _ hqs hhash

/-- C4 (counterexample): with an empty query list, create_url returns the
bare base with no question mark at all — urljoin drops a lone question mark
reference, exactly as the doctests of cas_urls.py show — refuting the claim
that the result always contains one. -/
theorem C4_counterexample :
    create_url (strL "http://localhost:5000") PathArg.none [] =
      .ok (strL "http://localhost:5000")
    ∧ '?' ∉ strL "http://localhost:5000" :=
  ⟨rfl, by decide⟩

/-- C4 witness: the amended theorem applied at a concrete call with one
query parameter. -/
theorem C4_witness : '?' ∈ strL "http://localhost:5000/foo?a=b" :=
  @C4_query_mark_when_params (strL "http://localhost:5000") (PathArg.str (strL "foo"))
    [(strL "a", some (strL "b"))] (strL "http://localhost:5000/foo?a=b")
    (by decide) rfl

theorem dropWhile_append_all {p : Char → Bool} :
    ∀ {s : PyStr}, (∀ c ∈ s, p c = true) → ∀ (t : PyStr),
      List.dropWhile p (s ++ t) = List.dropWhile p t := by
  intro s
  induction s with
  | nil => intro _ t; rfl
  | cons x xs ih =>
    intro h t
    have hx : p x = true := h x (List.mem_cons_self _ _)
    simp only [List.cons_append, List.dropWhile_cons, hx, if_pos]
    exact ih (fun c hc => h c (List.mem_cons_of_mem _ hc)) t

theorem dropWhile_replicate {p : Char → Bool} {c : Char} (hp : p c = true) (m : Nat) :
    List.dropWhile p (List.replicate m c) = [] := by
  have := dropWhile_append_all (p := p) (s := List.replicate m c)
    (by intro d hd; rw [List.eq_of_mem_replicate hd]; exact hp) []
  simpa using this

theorem dropWhile_append_left {p : Char → Bool} :
    ∀ {s : PyStr}, List.dropWhile p s ≠ [] → ∀ (t : PyStr),
      List.dropWhile p (s ++ t) = List.dropWhile p s ++ t := by
  intro s
  induction s with
  | nil => intro h; exact absurd rfl h
  | cons x xs ih =>
    intro h t
    by_cases hx : p x = true
    · simp only [List.dropWhile_cons, hx, if_pos] at h
      simp only [List.cons_append, List.dropWhile_cons, hx, if_pos]
      exact ih h t
    · simp only [List.cons_append, List.dropWhile_cons, hx]
      simp

theorem rstrip_append_slashes (s : PyStr) (m : Nat) :
    rstripBy isSlash (s ++ slashes m) = rstripBy isSlash s := by
  unfold rstripBy slashes
  rw [List.reverse_append, List.reverse_replicate]
  rw [dropWhile_append_all (by intro c hc; rw [List.eq_of_mem_replicate hc]; rfl)]

theorem lstrip_slashes_append (s : PyStr) (k : Nat) :
    lstripBy isSlash (slashes k ++ s) = lstripBy isSlash s := by
  unfold lstripBy slashes
  exact dropWhile_append_all (by intro c hc; rw [List.eq_of_mem_replicate hc]; rfl) s

theorem join2_padL (a s : PyStr) (k : Nat) : join2 a (slashes k ++ s) = join2 a s := by
  unfold join2
  rw [lstrip_slashes_append]

theorem join2_padR_left (a b : PyStr) (m : Nat) : join2 (a ++ slashes m) b = join2 a b := by
  unfold join2
  rw [rstrip_append_slashes]

theorem join2_padR_absorb (acc s : PyStr) (m : Nat) :
    ∃ m2, join2 acc (s ++ slashes m) = join2 acc s ++ slashes m2 := by
  by_cases hs : lstripBy isSlash s = []
  · refine ⟨0, ?_⟩
    have hall : ∀ c ∈ s, isSlash c = true := by
      intro c hc
      by_contra hno
      have : List.dropWhile isSlash s ≠ [] := by
        intro hd
        rw [List.dropWhile_eq_nil_iff] at hd
        exact hno (hd c hc)
      exact this hs
    unfold join2
    rw [show lstripBy isSlash (s ++ slashes m) = [] by
      unfold lstripBy
      rw [dropWhile_append_all hall]
      simp only [slashes]
      exact dropWhile_replicate (by decide) m]
    rw [hs]
    simp [slashes]
  · refine ⟨m, ?_⟩
    unfold join2
    rw [show lstripBy isSlash (s ++ slashes m) = lstripBy isSlash s ++ slashes m from
      dropWhile_append_left hs _]
    simp

theorem foldl_join2_pad_head {l2 : List PyStr} (h : l2 ≠ []) (x : PyStr) (m : Nat) :
    List.foldl join2 (x ++ slashes m) l2 = List.foldl join2 x l2 := by
  cases l2 with
  | nil => exact absurd rfl h
  | cons y t => simp only [List.foldl_cons, join2_padR_left]

theorem foldl_join2_mid_padR (s : PyStr) (m : Nat) {l2 : List PyStr} (h : l2 ≠ []) :
    ∀ (l1 : List PyStr) (acc : PyStr),
      List.foldl join2 acc (l1 ++ (s ++ slashes m) :: l2) =
        List.foldl join2 acc (l1 ++ s :: l2) := by
  intro l1
  induction l1 with
  | nil =>
    intro acc
    simp only [List.nil_append, List.foldl_cons]
    obtain ⟨m2, habs⟩ := join2_padR_absorb acc s m
    rw [habs]
    exact foldl_join2_pad_head h _ m2
  | cons a t ih =>
    intro acc
    simp only [List.cons_append, List.foldl_cons]
    exact ih (join2 acc a)

theorem foldl_join2_mid_padL (s : PyStr) (k : Nat) (l2 : List PyStr) :
    ∀ (l1 : List PyStr) (acc : PyStr),
      List.foldl join2 acc (l1 ++ (slashes k ++ s) :: l2) =
        List.foldl join2 acc (l1 ++ s :: l2) := by
  intro l1
  induction l1 with
  | nil =>
    intro acc
    simp only [List.nil_append, List.foldl_cons, join2_padL]
  | cons a t ih =>
    intro acc
    simp only [List.cons_append, List.foldl_cons]
    exact ih (join2 acc a)

theorem head_dropWhile_not {p : Char → Bool} :
    ∀ {l : PyStr} {x : Char}, (List.dropWhile p l).head? = some x → p x = false := by
  intro l
  induction l with
  | nil => intro x h; cases h
  | cons a t ih =>
    intro x h
    by_cases ha : p a = true
    · rw [List.dropWhile_cons, if_pos ha] at h
      exact ih h
    · rw [List.dropWhile_cons, if_neg ha] at h
      cases h
      exact Bool.eq_false_iff.mpr ha

/-- C6 (amended): segment joining of create_url.  Conjuncts: (1) appending
trailing slashes to any segment that is not the last leaves the reduced join
unchanged; (2) prepending leading slashes to any segment that is not the
first leaves it unchanged (re-padding the first segment with leading or the
last with trailing slashes does change the result, see the counterexample);
(3) each joining step places exactly one slash between the stripped left and
right parts, whose facing ends carry no slash; (4) when no truthy segment
remains after filtering, create_url raises TypeError — functools.reduce of
an empty sequence — instead of returning the base. -/
theorem C6_join_repadding :
    (∀ (l1 : List PyStr) (s : PyStr) (m : Nat) (l2 : List PyStr), l2 ≠ [] →
      reduceJoin (l1 ++ (s ++ slashes m) :: l2) = reduceJoin (l1 ++ s :: l2))
    ∧ (∀ (l1 : List PyStr) (s : PyStr) (k : Nat) (l2 : List PyStr), l1 ≠ [] →
      reduceJoin (l1 ++ (slashes k ++ s) :: l2) = reduceJoin (l1 ++ s :: l2))
    ∧ (∀ a b : PyStr, join2 a b = rstripBy isSlash a ++ '/' :: lstripBy isSlash b
        ∧ (∀ hd, (lstripBy isSlash b).head? = some hd → isSlash hd = false)
        ∧ (∀ lst, (rstripBy isSlash a).getLast? = some lst → isSlash lst = false))
    ∧ (∀ (base : PyStr) (l : List (Option PyStr)) (q : List (PyStr × Option PyStr)),
        l.filterMap truthy = [] → create_url base (.list l) q = .error .typeError) := by
  refine ⟨?_, ?_, ?_, ?_⟩
  · intro l1 s m l2 h
    cases l1 with
    | nil =>
      simp only [List.nil_append, reduceJoin]
      rw [foldl_join2_pad_head h s m]
    | cons a t =>
      simp only [List.cons_append, reduceJoin]
      rw [foldl_join2_mid_padR s m h t a]
  · intro l1 s k l2 h
    cases l1 with
    | nil => exact absurd rfl h
    | cons a t =>
      simp only [List.cons_append, reduceJoin]
      rw [foldl_join2_mid_padL s k l2 t a]
  · intro a b
    refine ⟨rfl, ?_, ?_⟩
    · intro hd h
      exact head_dropWhile_not h
    · intro lst h
      unfold rstripBy at h
      rw [List.getLast?_reverse] at h
      exact head_dropWhile_not h
  · intro base l q h
    simp [create_url, h, reduceJoin, Except.map]

/-- C6 (counterexample): re-padding the last segment with a trailing slash
changes the joined path (foo/bar versus foo/bar/), and a path list whose
segments all filter away makes create_url raise TypeError instead of
returning the base. -/
theorem C6_counterexample :
    reduceJoin [strL "foo", strL "bar"] = .ok (strL "foo/bar")
    ∧ reduceJoin [strL "foo", strL "bar/"] = .ok (strL "foo/bar/")
    ∧ strL "foo/bar" ≠ strL "foo/bar/"
    ∧ create_url (strL "http://x") (.list [Option.none]) [] = .error .typeError :=
  ⟨rfl, rfl, by decide, rfl⟩

/-- C6 witness: interior trailing-slash padding applied at a concrete
three-segment list. -/
theorem C6_witness :
    reduceJoin [strL "a", strL "b" ++ slashes 1, strL "c"] =
      reduceJoin [strL "a", strL "b", strL "c"] :=
  C6_join_repadding.1 [strL "a"] (strL "b") 1 [strL "c"] (by decide)

theorem findSome?_isSome_iff {α β : Type} (f : α → Option β) :
    ∀ l : List α, (l.findSome? f).isSome ↔ ∃ a ∈ l, (f a).isSome := by
  intro l
  induction l with
  | nil => simp [List.findSome?]
  | cons a t ih =>
    rw [List.findSome?_cons]
    cases hf : f a <;> simp [hf, ih]

theorem find?_isSome_iff {α : Type} (p : α → Bool) :
    ∀ l : List α, (l.find? p).isSome ↔ ∃ a ∈ l, p a = true := by
  intro l
  induction l with
  | nil => simp [List.find?]
  | cons a t ih =>
    by_cases hp : p a = true
    · simp [List.find?_cons, hp]
    · rw [List.find?_cons_of_neg _ (by simpa using hp)]
      simp only [List.mem_cons, ih]
      constructor
      · intro ⟨x, hx, hpx⟩; exact ⟨x, Or.inr hx, hpx⟩
      · rintro ⟨x, hx | hx, hpx⟩
        · subst hx; exact absurd hpx hp
        · exact ⟨x, hx, hpx⟩

theorem findStarChild_isSome_iff (t : Elem) (tag : String) :
    (findStarChild t tag).isSome ↔
      ∃ c ∈ t.children, ∃ g ∈ c.children, g.tag = tag := by
  unfold findStarChild
  rw [findSome?_isSome_iff]
  constructor
  · intro ⟨c, hc, hg⟩
    rw [find?_isSome_iff] at hg
    obtain ⟨g, hgm, hgt⟩ := hg
    exact ⟨c, hc, g, hgm, by simpa using hgt⟩
  · intro ⟨c, hc, g, hgm, hgt⟩
    refine ⟨c, hc, ?_⟩
    rw [find?_isSome_iff]
    exact ⟨g, hgm, by simpa using hgt⟩

/-- C2 (amended): error behavior of the response handlers on
malformed-but-readable bodies.  Conjuncts: (1) the V1 handler never lets an
exception escape — every body yields an ok result (the ValueError of the
two-line unpacking is caught); (2) a body that is not well-formed XML makes
the V2 and V3 handlers propagate the ParseError of fromstring — the try
block has only a finally clause; (3) a well-formed body containing neither a
cas:user grandchild nor a cas:authenticationFailure child makes both raise
TypeError while logging (str plus bytes concatenation) instead of returning
an invalid result. -/
theorem C2_malformed_behavior :
    (∀ (cfg : Config) (s : Session) (data : Bytes),
      ∃ b s2, _validate_cas1 cfg s data = (.ok b, s2))
    ∧ (∀ (cfg : Config) (s : Session) (data : Bytes) (e : PyError),
        fromstring data = .error e →
          _validate_cas2 cfg s data = (.error e, s)
          ∧ _validate_cas3 cfg s data = (.error e, s))
    ∧ (∀ (cfg : Config) (s : Session) (data : Bytes) (t : Elem),
        fromstring data = .ok t →
        findStarChild t qnUser = none →
        findChild t qnAuthFailure = none →
          _validate_cas2 cfg s data = (.error .typeError, s)
          ∧ _validate_cas3 cfg s data = (.error .typeError, s)) := by
  refine ⟨?_, ?_, ?_⟩
  · intro cfg s data
    unfold _validate_cas1
    rcases hr : readlines data with _ | ⟨l1, _ | ⟨l2, _ | ⟨l3, rest⟩⟩⟩ <;> dsimp only
    · exact ⟨false, s, rfl⟩
    · exact ⟨false, s, rfl⟩
    · split
      · exact ⟨true, _, rfl⟩
      · exact ⟨false, s, rfl⟩
    · exact ⟨false, s, rfl⟩
  · intro cfg s data e h
    constructor
    · unfold _validate_cas2; rw [h]
    · unfold _validate_cas3; rw [h]
  · intro cfg s data t h hu hf
    constructor
    · unfold _validate_cas2; simp only [h, hu, hf]
    · unfold _validate_cas3; simp only [h, hu, hf]

/-- C2 (counterexample): the V2 handler raises instead of returning an
invalid result — a ParseError escapes for a body that is not well-formed
XML, and a TypeError escapes for well-formed XML with neither expected
element — refuting the claim that the parsers degrade to an invalid result
without exceptions. -/
theorem C2_counterexample :
    _validate_cas2 testCfg [] (strB "<") = (.error .parseError, [])
    ∧ _validate_cas2 testCfg [] (strB "<a/>") = (.error .typeError, [])
    ∧ _validate_cas3 testCfg [] (strB "<a/>") = (.error .typeError, []) :=
  ⟨rfl, rfl, rfl⟩

/-- C2 witness: the amended theorem applied at concrete malformed bodies. -/
theorem C2_witness :
    _validate_cas2 testCfg [] (strB "oops") = (.error .parseError, [])
    ∧ _validate_cas3 testCfg [] (strB "<b/>") = (.error .typeError, []) :=
  ⟨(C2_malformed_behavior.2.1 testCfg [] (strB "oops") PyError.parseError rfl).1,
   (C2_malformed_behavior.2.2 testCfg [] (strB "<b/>")
      (Elem.mk "b" [] Option.none []) rfl rfl rfl).2⟩

/-- C3 (amended): the V2 and V3 handlers look the user element up with the
star-slash path, i.e. only among the grandchildren of the root in document
order, not at arbitrary depth (see the counterexample for a depth-three
user element that is not found).  Conjuncts: (1) the V2 handler succeeds
exactly when some grandchild of the root carries the cas:user tag — its
text is not inspected, so an empty element counts; (2) when the lookup
returns a user element, the V2 handler reports success and stores that
element's text as the username; (3) likewise for the V3 handler when the
cas:attributes grandchild is also present; (4) the V3 handler raises
TypeError when a user element is found but no attributes element exists. -/
theorem C3_user_lookup_depth :
    (∀ (cfg : Config) (s : Session) (data : Bytes) (t : Elem),
      fromstring data = .ok t →
        ((∃ s2, _validate_cas2 cfg s data = (.ok true, s2)) ↔
          ∃ c ∈ t.children, ∃ g ∈ c.children, g.tag = qnUser))
    ∧ (∀ (cfg : Config) (s : Session) (data : Bytes) (t u : Elem),
        fromstring data = .ok t →
        findStarChild t qnUser = some u →
          _validate_cas2 cfg s data =
            (.ok true, dictSet s cfg.cas_username_session_key (.vStr u.text)))
    ∧ (∀ (cfg : Config) (s : Session) (data : Bytes) (t u a : Elem),
        fromstring data = .ok t →
        findStarChild t qnUser = some u →
        findStarChild t qnAttributes = some a →
          _validate_cas3 cfg s data =
            (.ok true,
             dictSet (dictSet s cfg.cas_username_session_key (.vStr u.text))
               cfg.cas_attributes_session_key (.vAttrs (foldAttrs a.children))))
    ∧ (∀ (cfg : Config) (s : Session) (data : Bytes) (t u : Elem),
        fromstring data = .ok t →
        findStarChild t qnUser = some u →
        findStarChild t qnAttributes = none →
          _validate_cas3 cfg s data = (.error .typeError, s)) := by
  refine ⟨?_, ?_, ?_, ?_⟩
  · intro cfg s data t h
    rw [← findStarChild_isSome_iff]
    unfold _validate_cas2
    simp only [h]
    cases hu : findStarChild t qnUser with
    | some u =>
      simp only [hu, Option.isSome_some, iff_true]
      exact ⟨_, rfl⟩
    | none =>
      simp only [hu, Option.isSome_none, iff_false, not_exists]
      cases hf : findChild t qnAuthFailure with
      | none => simp [hf]
      | some err =>
        simp only [hf]
        cases hc : alookup err.attrib "code" <;> cases ht : err.text <;> simp [hc, ht]
  · intro cfg s data t u h hu
    unfold _validate_cas2
    simp only [h, hu]
  · intro cfg s data t u a h hu ha
    unfold _validate_cas3
    simp only [h, hu, ha]
  · intro cfg s data t u h hu ha
    unfold _validate_cas3
    simp only [h, hu, ha]

/-- C3 (counterexample): a well-formed response whose cas:user element sits
three levels below the root.  The element is present beneath the root, yet
both handlers fail to find it (the star-slash path only inspects
grandchildren) and end in a TypeError instead of reporting success with
username bob. -/
theorem C3_counterexample :
    fromstring xmlDeep = .ok treeDeep
    ∧ treeDeep.children =
        [Elem.mk "a" [] Option.none
          [Elem.mk "b" [] Option.none [Elem.mk qnUser [] (some "bob") []]]]
    ∧ _validate_cas2 testCfg [] xmlDeep = (.error .typeError, [])
    ∧ _validate_cas3 testCfg [] xmlDeep = (.error .typeError, []) :=
  ⟨rfl, rfl, rfl, rfl⟩

/-- C3 witness: the amended theorem applied at a response whose user
element is empty — presence alone yields success, with the element text
(None) stored as the username. -/
theorem C3_witness :
    _validate_cas2 testCfg [] xmlEmptyUser =
      (.ok true, [("CAS_USERNAME", SessVal.vStr Option.none)]) :=
  C3_user_lookup_depth.2.1 testCfg [] xmlEmptyUser treeEmptyUser
    (Elem.mk qnUser [] Option.none []) rfl rfl

theorem alookup_dictSet_self {α β : Type} [DecidableEq α]
    (d : List (α × β)) (k : α) (v : β) : alookup (dictSet d k v) k = some v := by
  induction d with
  | nil => simp [dictSet, alookup]
  | cons kv rest ih =>
    by_cases hk : kv.1 = k
    · simp [dictSet, alookup, hk]
    · simp [dictSet, alookup, hk, ih]

theorem alookup_dictSet_ne {α β : Type} [DecidableEq α]
    (d : List (α × β)) (k k2 : α) (v : β) (h : k2 ≠ k) :
    alookup (dictSet d k v) k2 = alookup d k2 := by
  induction d with
  | nil =>
    have hk : ¬ k = k2 := fun he => h he.symm
    simp [dictSet, alookup, hk]
  | cons kv rest ih =>
    by_cases hk : kv.1 = k
    · subst hk
      have h2 : ¬ kv.1 = k2 := fun he => h he.symm
      simp [dictSet, alookup, h2]
    · simp [dictSet, alookup, hk, ih]

theorem combineAttr_nil (cur : Option AttrVal) : combineAttr cur [] = cur := by
  cases cur with
  | none => rfl
  | some v => cases v <;> simp [combineAttr]

theorem foldStep_collect (acc : AttrDict) (a : Elem) (k : String) :
    alookup (foldStep acc a) k =
      combineAttr (alookup acc k) (collectAttr [a] k) := by
  by_cases hk : localName a.tag = k
  · subst hk
    unfold foldStep
    cases hcur : alookup acc (localName a.tag) with
    | none =>
      simp [hcur, alookup_dictSet_self, collectAttr, combineAttr, presentAs]
    | some v =>
      cases v with
      | s w =>
        simp [hcur, alookup_dictSet_self, collectAttr, combineAttr]
      | l ws =>
        simp [hcur, alookup_dictSet_self, collectAttr, combineAttr]
  · unfold foldStep
    have hbeq : (localName a.tag == k) = false := by simpa using hk
    have hc : collectAttr [a] k = [] := by
      simp [collectAttr, List.filter_cons, hbeq]
    rw [hc, combineAttr_nil]
    have hne : k ≠ localName a.tag := fun he => hk he.symm
    cases hcur : alookup acc (localName a.tag) with
    | none =>
      simp only [hcur]
      exact alookup_dictSet_ne _ _ _ _ hne
    | some v =>
      cases v <;> simp only [hcur] <;> exact alookup_dictSet_ne _ _ _ _ hne

theorem combineAttr_append (cur : Option AttrVal) (vs ws : List (Option String)) :
    combineAttr (combineAttr cur vs) ws = combineAttr cur (vs ++ ws) := by
  cases cur with
  | none =>
    cases vs with
    | nil => simp [combineAttr, presentAs]
    | cons v1 t =>
      cases t with
      | nil =>
        cases ws <;> simp [combineAttr, presentAs]
      | cons v2 t2 => simp [combineAttr, presentAs]
  | some v =>
    cases v with
    | s w =>
      cases vs with
      | nil => simp [combineAttr]
      | cons v1 t => simp [combineAttr]
    | l xs => simp [combineAttr]

theorem collectAttr_append (l1 l2 : List Elem) (k : String) :
    collectAttr (l1 ++ l2) k = collectAttr l1 k ++ collectAttr l2 k := by
  simp [collectAttr, List.filter_append]

theorem foldAttrs_loop_collect (k : String) :
    ∀ (children : List Elem) (acc : AttrDict),
      alookup (children.foldl foldStep acc) k =
        combineAttr (alookup acc k) (collectAttr children k) := by
  intro children
  induction children with
  | nil =>
    intro acc
    simp [collectAttr, combineAttr_nil]
  | cons a rest ih =>
    intro acc
    rw [List.foldl_cons, ih (foldStep acc a), foldStep_collect]
    rw [combineAttr_append]
    rw [show collectAttr [a] k ++ collectAttr rest k = collectAttr (a :: rest) k from
      (collectAttr_append [a] rest k).symm]

/-- C7: the V3 attribute folding.  For a successful response carrying both
a user and an attributes grandchild, the handler stores the folded mapping,
and for every key the stored value presents exactly the texts of the
attribute children with that local tag name (namespace prefix stripped), in
document order: absent for no occurrence, a scalar for a single occurrence,
and a list of all occurrences for two or more. -/
theorem C7_attributes_fold :
    (∀ (cfg : Config) (s : Session) (data : Bytes) (t u a : Elem),
      fromstring data = .ok t →
      findStarChild t qnUser = some u →
      findStarChild t qnAttributes = some a →
        _validate_cas3 cfg s data =
          (.ok true,
           dictSet (dictSet s cfg.cas_username_session_key (.vStr u.text))
             cfg.cas_attributes_session_key (.vAttrs (foldAttrs a.children))))
    ∧ (∀ (children : List Elem) (k : String),
        alookup (foldAttrs children) k = presentAs (collectAttr children k)) := by
  constructor
  · intro cfg s data t u a h hu ha
    unfold _validate_cas3
    simp only [h, hu, ha]
  · intro children k
    unfold foldAttrs
    rw [foldAttrs_loop_collect k children []]
    rfl

/-- C7 witness: the folding theorem applied at a concrete response with two
affiliation entries and one email entry — the repeated key folds to the
two-element list in document order, the single key stays scalar, and the
handler stores exactly this mapping. -/
theorem C7_witness :
    _validate_cas3 testCfg [] xmlV3ok =
      (.ok true,
       [("CAS_USERNAME", SessVal.vStr (some "bob")),
        ("CAS_ATTRIBUTES", SessVal.vAttrs
          [("affiliation", AttrVal.l [some "staff", some "faculty"]),
           ("email", AttrVal.s (some "e"))])])
    ∧ alookup (foldAttrs attrsV3.children) "affiliation" =
        some (AttrVal.l [some "staff", some "faculty"])
    ∧ alookup (foldAttrs attrsV3.children) "email" = some (AttrVal.s (some "e")) :=
  ⟨C7_attributes_fold.1 testCfg [] xmlV3ok treeV3ok userBob attrsV3 rfl rfl rfl,
   C7_attributes_fold.2 attrsV3.children "affiliation",
   C7_attributes_fold.2 attrsV3.children "email"⟩

/-- C8: the V1 plaintext handler.  Conjuncts: (1) the yes/bob body is valid
with username bob; (2) the no body is invalid; (3) for every two-line body,
validity holds exactly when the stripped first line is the case-sensitive
byte literal yes, and on validity the stripped, UTF-8-decoded second line is
stored as the username; (4) a body with any other line count is reported
invalid without an exception. -/
theorem C8_cas1_two_lines :
    (_validate_cas1 testCfg [] (strB "yes\nbob\n") =
      (.ok true, [("CAS_USERNAME", SessVal.vStr (some "bob"))]))
    ∧ (_validate_cas1 testCfg [] (strB "no\n\n") = (.ok false, []))
    ∧ (∀ (cfg : Config) (s : Session) (data : Bytes) (l1 l2 : Bytes),
        readlines data = [l1, l2] →
          _validate_cas1 cfg s data =
            (if bstrip l1 = strB "yes" then
              (.ok true, dictSet s cfg.cas_username_session_key
                (.vStr (some (utf8DecodeIgnore (bstrip l2)))))
             else (.ok false, s)))
    ∧ (∀ (cfg : Config) (s : Session) (data : Bytes),
        (readlines data).length ≠ 2 → _validate_cas1 cfg s data = (.ok false, s)) := by
  refine ⟨rfl, rfl, ?_, ?_⟩
  · intro cfg s data l1 l2 h
    unfold _validate_cas1
    simp only [h]
    rfl
  · intro cfg s data hlen
    unfold _validate_cas1
    rcases hr : readlines data with _ | ⟨a, _ | ⟨b, _ | ⟨c, r⟩⟩⟩ <;>
      first
        | rfl
        | (rw [hr] at hlen; simp at hlen)

/-- C8 witness: the two-line characterization applied at a fresh concrete
body. -/
theorem C8_witness :
    _validate_cas1 testCfg [] (strB "yes\nalice\n") =
      (.ok true, [("CAS_USERNAME", SessVal.vStr (some "alice"))]) :=
  C8_cas1_two_lines.2.2.1 testCfg [] (strB "yes\nalice\n")
    (strB "yes\n") (strB "alice\n") rfl

/-- C9: an unsupported configured protocol version makes validate raise the
configuration error (ValueError on the _PROTOCOLS keys) before the validate
URL is built and before any network request: the result is the ValueError —
not the TypeError that the URL-building call would raise — and it is the
same for every fetch function, so no request is consulted. -/
theorem C9_unsupported_version :
    ∀ (cfg : Config) (service : PyStr) (ticket : Option PyStr)
      (fetch : PyStr → Bytes) (s : Session),
      ¬ (cfg.cas_version = "1" ∨ cfg.cas_version = "2" ∨ cfg.cas_version = "3") →
        validate cfg service ticket fetch s = (.error .valueError, s) := by
  intro cfg service ticket fetch s h
  unfold validate
  rw [if_pos h]

/-- C9 witness: the version check applied at the configured version 4. -/
theorem C9_witness :
    validate { testCfg with cas_version := "4" } (strL "s") (some (strL "t"))
      (fun _ => []) [] = (.error .valueError, []) :=
  C9_unsupported_version { testCfg with cas_version := "4" } (strL "s")
    (some (strL "t")) (fun _ => []) [] (by decide)

/-- C1 (code bug): for every supported protocol version, validate raises
TypeError instead of building the version-appropriate URL, requesting, and
parsing: it passes the keyword argument version to create_cas_validate_url,
whose parameters are cas_url, cas_route_pfx, service, ticket, renew — and
it would in any case always target the v1 validate endpoint, never
create_cas_serviceValidate_url.  The result is the same for every fetch
function, so the crash happens before any request. -/
theorem C1_validate_crashes :
    ∀ (cfg : Config) (service : PyStr) (ticket : Option PyStr)
      (fetch : PyStr → Bytes) (s : Session),
      (cfg.cas_version = "1" ∨ cfg.cas_version = "2" ∨ cfg.cas_version = "3") →
        validate cfg service ticket fetch s = (.error .typeError, s) := by
  intro cfg service ticket fetch s h
  unfold validate
  rw [if_neg (not_not_intro h)]
  rfl

/-- C1 witness: the crash evaluated at the test-suite configuration
(version 2) with the ticket and mocked response of the test suite. -/
theorem C1_witness :
    validate testCfg (strL "http://localhost/login/") (some (strL "12345-abcdefg-cas"))
      (fun _ => strB "yes\nbob\n") [] = (.error .typeError, []) :=
  C1_validate_crashes testCfg (strL "http://localhost/login/")
    (some (strL "12345-abcdefg-cas")) (fun _ => strB "yes\nbob\n") []
    (Or.inr (Or.inl rfl))

/-- C5 (code bug): the logout endpoint never builds its redirect URL — it
passes four positional arguments (server, route prefix, logout return URL,
version) to create_cas_logout_url, which has only the three parameters
cas_url, cas_route_pfx, service, so every call raises TypeError; the
second conjunct evaluates the crash at the configuration of
test_logout_with_return_url, which expects the service-parameter URL.  The
builder itself has no version logic at all: it always uses the parameter
name service, never url. -/
theorem C5_logout_crashes :
    (∀ cfg : Config, logout_redirect_url cfg = .error .typeError)
    ∧ logout_redirect_url testCfg = .error .typeError :=
  ⟨fun _ => rfl, rfl⟩

theorem cas1_cases (cfg : Config) (s : Session) (data : Bytes) :
    (∃ l1 l2, readlines data = [l1, l2] ∧ bstrip l1 = strB "yes" ∧
      _validate_cas1 cfg s data =
        (.ok true, dictSet s cfg.cas_username_session_key
          (.vStr (some (utf8DecodeIgnore (bstrip l2))))))
    ∨ _validate_cas1 cfg s data = (.ok false, s) := by
  unfold _validate_cas1
  rcases hr : readlines data with _ | ⟨l1, _ | ⟨l2, _ | ⟨l3, r⟩⟩⟩ <;> dsimp only
  · right; rfl
  · right; rfl
  · by_cases hy : bstrip l1 = [121, 101, 115]
    · rw [if_pos hy]
      exact Or.inl ⟨l1, l2, rfl, hy, rfl⟩
    · rw [if_neg hy]
      right; rfl
  · right; rfl

theorem cas2_cases (cfg : Config) (s : Session) (data : Bytes) :
    (∃ t u, fromstring data = .ok t ∧ findStarChild t qnUser = some u ∧
      _validate_cas2 cfg s data =
        (.ok true, dictSet s cfg.cas_username_session_key (.vStr u.text)))
    ∨ ∃ x, _validate_cas2 cfg s data = (x, s) ∧ x ≠ .ok true := by
  unfold _validate_cas2
  cases hf : fromstring data with
  | error e =>
    right; exact ⟨.error e, by simp [hf], by simp⟩
  | ok t =>
    cases hu : findStarChild t qnUser with
    | some u =>
      left; exact ⟨t, u, rfl, hu, by simp [hu]⟩
    | none =>
      right
      cases hfc : findChild t qnAuthFailure with
      | none => exact ⟨.error .typeError, by simp [hu, hfc], by simp⟩
      | some err =>
        cases hc : alookup err.attrib "code" with
        | none => exact ⟨.error .typeError, by simp [hu, hfc, hc], by simp⟩
        | some cv =>
          cases ht : err.text with
          | none => exact ⟨.error .typeError, by simp [hu, hfc, hc, ht], by simp⟩
          | some tv => exact ⟨.ok false, by simp [hu, hfc, hc, ht], by simp⟩

theorem cas3_cases (cfg : Config) (s : Session) (data : Bytes) :
    (∃ t u a, fromstring data = .ok t ∧ findStarChild t qnUser = some u ∧
      findStarChild t qnAttributes = some a ∧
      _validate_cas3 cfg s data =
        (.ok true,
         dictSet (dictSet s cfg.cas_username_session_key (.vStr u.text))
           cfg.cas_attributes_session_key (.vAttrs (foldAttrs a.children))))
    ∨ ∃ x, _validate_cas3 cfg s data = (x, s) ∧ x ≠ .ok true := by
  unfold _validate_cas3
  cases hf : fromstring data with
  | error e =>
    right; exact ⟨.error e, by simp [hf], by simp⟩
  | ok t =>
    cases hu : findStarChild t qnUser with
    | some u =>
      cases ha : findStarChild t qnAttributes with
      | some a =>
        left; exact ⟨t, u, a, rfl, hu, ha, by simp [hu, ha]⟩
      | none =>
        right; exact ⟨.error .typeError, by simp [hu, ha], by simp⟩
    | none =>
      right
      cases hfc : findChild t qnAuthFailure with
      | none => exact ⟨.error .typeError, by simp [hu, hfc], by simp⟩
      | some err =>
        cases hc : alookup err.attrib "code" with
        | none => exact ⟨.error .typeError, by simp [hu, hfc, hc], by simp⟩
        | some cv =>
          cases ht : err.text with
          | none => exact ⟨.error .typeError, by simp [hu, hfc, hc, ht], by simp⟩
          | some tv => exact ⟨.ok false, by simp [hu, hfc, hc, ht], by simp⟩

/-- C10: session writes of the three response handlers.  For every
configuration, session and body: a handler that does not succeed leaves the
session exactly as it was; a successful V1 handler writes exactly the
decoded second-line username under the username key, a successful V2
handler exactly the user-element text under the username key, a successful
V3 handler exactly the username and the folded attributes mapping under the
two configured keys; and in every case a key different from both configured
identity keys reads back unchanged. -/
theorem C10_session_writes :
    ∀ (cfg : Config) (s : Session) (data : Bytes),
      (∀ x s2, _validate_cas1 cfg s data = (x, s2) → x ≠ .ok true → s2 = s)
      ∧ (∀ s2, _validate_cas1 cfg s data = (.ok true, s2) →
          ∃ l1 l2, readlines data = [l1, l2] ∧
            s2 = dictSet s cfg.cas_username_session_key
              (.vStr (some (utf8DecodeIgnore (bstrip l2)))))
      ∧ (∀ x s2, _validate_cas2 cfg s data = (x, s2) → x ≠ .ok true → s2 = s)
      ∧ (∀ s2, _validate_cas2 cfg s data = (.ok true, s2) →
          ∃ t u, fromstring data = .ok t ∧ findStarChild t qnUser = some u ∧
            s2 = dictSet s cfg.cas_username_session_key (.vStr u.text))
      ∧ (∀ x s2, _validate_cas3 cfg s data = (x, s2) → x ≠ .ok true → s2 = s)
      ∧ (∀ s2, _validate_cas3 cfg s data = (.ok true, s2) →
          ∃ t u a, fromstring data = .ok t ∧ findStarChild t qnUser = some u ∧
            findStarChild t qnAttributes = some a ∧
            s2 = dictSet (dictSet s cfg.cas_username_session_key (.vStr u.text))
              cfg.cas_attributes_session_key (.vAttrs (foldAttrs a.children)))
      ∧ (∀ x s2,
          (_validate_cas1 cfg s data = (x, s2) ∨ _validate_cas2 cfg s data = (x, s2)
            ∨ _validate_cas3 cfg s data = (x, s2)) →
          ∀ k, k ≠ cfg.cas_username_session_key → k ≠ cfg.cas_attributes_session_key →
            alookup s2 k = alookup s k) := by
  intro cfg s data
  have h1 := cas1_cases cfg s data
  have h2 := cas2_cases cfg s data
  have h3 := cas3_cases cfg s data
  refine ⟨?_, ?_, ?_, ?_, ?_, ?_, ?_⟩
  · intro x s2 heq hx
    rcases h1 with ⟨l1, l2, hr, hy, he⟩ | he <;> rw [he] at heq <;>
      injection heq with hA hB
    · exact absurd hA.symm hx
    · exact hB.symm
  · intro s2 heq
    rcases h1 with ⟨l1, l2, hr, hy, he⟩ | he <;> rw [he] at heq <;>
      injection heq with hA hB
    · exact ⟨l1, l2, hr, hB.symm⟩
    · simp at hA
  · intro x s2 heq hx
    rcases h2 with ⟨t, u, hf, hu, he⟩ | ⟨y, he, hy⟩ <;> rw [he] at heq <;>
      injection heq with hA hB
    · exact absurd hA.symm hx
    · exact hB.symm
  · intro s2 heq
    rcases h2 with ⟨t, u, hf, hu, he⟩ | ⟨y, he, hy⟩ <;> rw [he] at heq <;>
      injection heq with hA hB
    · exact ⟨t, u, hf, hu, hB.symm⟩
    · exact absurd hA hy
  · intro x s2 heq hx
    rcases h3 with ⟨t, u, a, hf, hu, ha, he⟩ | ⟨y, he, hy⟩ <;> rw [he] at heq <;>
      injection heq with hA hB
    · exact absurd hA.symm hx
    · exact hB.symm
  · intro s2 heq
    rcases h3 with ⟨t, u, a, hf, hu, ha, he⟩ | ⟨y, he, hy⟩ <;> rw [he] at heq <;>
      injection heq with hA hB
    · exact ⟨t, u, a, hf, hu, ha, hB.symm⟩
    · exact absurd hA hy
  · intro x s2 hor k hk1 hk2
    rcases hor with heq | heq | heq
    · rcases h1 with ⟨l1, l2, hr, hy, he⟩ | he <;> rw [he] at heq <;>
        injection heq with hA hB <;> rw [← hB]
      exact alookup_dictSet_ne _ _ _ _ hk1
    · rcases h2 with ⟨t, u, hf, hu, he⟩ | ⟨y, he, hy⟩ <;> rw [he] at heq <;>
        injection heq with hA hB <;> rw [← hB]
      exact alookup_dictSet_ne _ _ _ _ hk1
    · rcases h3 with ⟨t, u, a, hf, hu, ha, he⟩ | ⟨y, he, hy⟩ <;> rw [he] at heq <;>
        injection heq with hA hB <;> rw [← hB]
      rw [alookup_dictSet_ne _ _ _ _ hk2]
      exact alookup_dictSet_ne _ _ _ _ hk1

/-- C10 witness: the frame conjunct applied at a concrete successful V1
validation — a session key other than the configured identity keys reads
back unchanged. -/
theorem C10_witness :
    alookup ([("CAS_USERNAME", SessVal.vStr (some "bob"))] : Session) "OTHER" =
      alookup ([] : Session) "OTHER" :=
  (C10_session_writes testCfg [] (strB "yes\nbob\n")).2.2.2.2.2.2
    (.ok true) [("CAS_USERNAME", SessVal.vStr (some "bob"))]
    (Or.inl rfl) "OTHER" (by decide) (by decide)

end FlaskCas
